import Mathlib

/-!
Verification of the Live Coaching Session Engine of the MCai repository.

The definitions below are shallow embeddings of the TypeScript/JavaScript
source:
  * the PCM codec helpers `floatTo16BitPCM` / `int16ToFloat32` of
    `src/hooks/useLiveSession.ts` (samples as exact rationals, byte buffers
    as lists of naturals below 256);
  * the 4096-sample capture windowing of `src/public/audio-processor.js`;
  * the playback-scheduling cursor arithmetic of `playAudioChunk`;
  * the session connection state machine (`connect` / `disconnect` /
    `cleanupSession` / the `ws.onclose` handler) and the outbound send
    operations of `src/hooks/useLiveSession.ts`;
  * the subtitle / feedback aggregator of the live-pose store
    (`isThinkingToken`, `appendSubtitle`, `addFeedback`,
    `cleanupExpiredFeedback`).
-/

namespace MCai

/-! ## PCM audio codec (`src/hooks/useLiveSession.ts`, helpers) -/

/-- JavaScript `ToIntegerOrInfinity` on a finite value: truncation toward
zero, as performed by `DataView.setInt16` on its number argument. -/
def jsTrunc (x : ℚ) : ℤ :=
  if 0 ≤ x then ⌊x⌋ else -⌊-x⌋

/-- The clamp `Math.max(-1, Math.min(1, x))` in `floatTo16BitPCM`. -/
def clampSample (x : ℚ) : ℚ :=
  max (-1) (min 1 x)

/-- The scaling step of `floatTo16BitPCM`:
`s < 0 ? s * 0x8000 : s * 0x7FFF`. -/
def scaleSample (s : ℚ) : ℚ :=
  if s < 0 then s * 32768 else s * 32767

/-- Storage by `DataView.setInt16`: the truncated value modulo 2^16. -/
def int16Wrap (t : ℤ) : ℕ :=
  (t % 65536).toNat

/-- One sample of `floatTo16BitPCM`: clamp, scale, truncate, and write the
16-bit value as two little-endian bytes. -/
def encodeSample (x : ℚ) : List ℕ :=
  let w := int16Wrap (jsTrunc (scaleSample (clampSample x)))
  [w % 256, w / 256]

/-- Running `floatTo16BitPCM` over a whole sample array, producing the byte buffer. -/
def floatTo16BitPCM (xs : List ℚ) : List ℕ :=
  (xs.map encodeSample).flatten

/-- Reading by `DataView.getInt16`: reinterpret an unsigned 16-bit value as signed. -/
def toInt16 (w : ℕ) : ℤ :=
  if w < 32768 then (w : ℤ) else (w : ℤ) - 65536

/-- Decoder `int16ToFloat32`: read little-endian 16-bit words and divide by 32768;
`len = byteLength / 2` silently drops a trailing odd byte. -/
def int16ToFloat32 : List ℕ → List ℚ
  | lo :: hi :: rest => ((toInt16 (lo + 256 * hi) : ℚ) / 32768) :: int16ToFloat32 rest
  | _ => []

/-- The value a single sample decodes back to after the encode/decode chain
(the composition of the two helpers on one sample). -/
def roundTripSample (x : ℚ) : ℚ :=
  (jsTrunc (scaleSample (clampSample x)) : ℚ) / 32768

/-! ## Capture windowing (`src/public/audio-processor.js`) -/

/-- The window size `this.bufferSize = 4096` in `AudioProcessor`. -/
def bufferSize : ℕ := 4096

/-- State of the `AudioProcessor` worklet: the partially filled buffer
(`this._buffer` up to `this._index`) and the frames posted so far. -/
structure CaptureState where
  buf : List ℚ
  frames : List (List ℚ)
deriving DecidableEq

/-- One iteration of the sample loop in `AudioProcessor.process`: append the
sample; when the buffer is full, post it and reset the index. -/
def captureStep (st : CaptureState) (sample : ℚ) : CaptureState :=
  let buf := st.buf ++ [sample]
  if bufferSize ≤ buf.length then
    { buf := [], frames := st.frames ++ [buf] }
  else
    { st with buf := buf }

/-- Feeding a block of input samples through `AudioProcessor.process`. -/
def processSamples (st : CaptureState) (input : List ℚ) : CaptureState :=
  input.foldl captureStep st

/-- Running the capture processor from its initial state on a stream. -/
def captureRun (input : List ℚ) : CaptureState :=
  processSamples ⟨[], []⟩ input

/-! ## Playback scheduling (`playAudioChunk` cursor arithmetic) -/

/-- The scheduling core of `playAudioChunk`: the cursor `nextStartTimeRef` is
first pulled up to `ctx.currentTime` when it has fallen behind, the chunk is
started at the resulting cursor value, and the cursor advances by the chunk
duration.  Each inbound chunk is a pair `(now, dur)`: the audio-clock time at
arrival and the decoded buffer's duration.  Returns the start times. -/
def schedule : ℚ → List (ℚ × ℚ) → List ℚ
  | _, [] => []
  | c, a :: rest =>
      let s := max c a.1
      s :: schedule (s + a.2) rest

/-! ## Session connection state machine (`src/hooks/useLiveSession.ts`) -/

/-- Status type `LiveStatus` of the hook. -/
inductive LiveStatus
  | disconnected
  | connecting
  | connected
  | error
deriving DecidableEq

/-- The `WebSocket.readyState` values. -/
inductive WsReadyState
  | CONNECTING
  | OPEN
  | CLOSING
  | CLOSED
deriving DecidableEq

/-- A raw landmark as passed to `sendPoseData`. -/
structure LandmarkIn where
  x : ℚ
  y : ℚ
  z : ℚ
  visibility : Option ℚ
deriving DecidableEq

/-- The simplified landmark record built inside `sendPoseData`. -/
structure SimplifiedLandmark where
  idx : ℕ
  x : ℚ
  y : ℚ
  z : ℚ
  v : ℚ
deriving DecidableEq

/-- The pose record passed to `setTargetPose`; the `structure` sub-object's
fields are inlined because `structure` is reserved in Lean. -/
structure TargetPose where
  id : String
  title : String
  description : String
  headPos : String
  handsPos : String
  feetPos : String
  tips : List String
deriving DecidableEq

/-- The JSON frames `ws.send` is called with. -/
inductive OutboundFrame
  | audio (data : String)
  | image (data : Option String)
  | pose (data : List SimplifiedLandmark)
  | setTarget (id name description head hands feet : String) (tips : List String)
deriving DecidableEq

/-- The mutable refs and state of `useLiveSession`: `status`, `wsRef` (with
its `readyState`), whether `ws.onclose` is still attached,
`isDisconnectingRef`, `streamRef` liveness, `audioContextRef` liveness, and
the transcript of `ws.send` calls. -/
structure SessionState where
  status : LiveStatus
  wsState : Option WsReadyState
  oncloseAttached : Bool
  isDisconnecting : Bool
  streamActive : Bool
  audioCtxOpen : Bool
  sent : List OutboundFrame
deriving DecidableEq

/-- JS `Math.round`: round half toward positive infinity. -/
def jsRound (x : ℚ) : ℤ := ⌊x + 1/2⌋

/-- Rounding `Math.round(x * 1000) / 1000` — keep three decimal places. -/
def round3 (x : ℚ) : ℚ := (jsRound (x * 1000) : ℚ) / 1000

/-- Rounding `Math.round(x * 100) / 100` — keep two decimal places. -/
def round2 (x : ℚ) : ℚ := (jsRound (x * 100) : ℚ) / 100

/-- Teardown `cleanupSession`: set the disconnecting flag, detach `onclose` and close
and null the socket when one is held, stop the microphone tracks, close the
audio context, and set status `disconnected`. -/
def cleanupSession (s : SessionState) : SessionState :=
  let s1 := { s with isDisconnecting := true }
  let s2 :=
    if s1.wsState.isSome then { s1 with oncloseAttached := false, wsState := none } else s1
  { s2 with streamActive := false, audioCtxOpen := false, status := LiveStatus.disconnected }

/-- Manual `disconnect()`: set `isDisconnectingRef` first, then `cleanupSession`. -/
def disconnect (s : SessionState) : SessionState :=
  cleanupSession { s with isDisconnecting := true }

/-- The `ws.onclose` handler body: when the close was not locally requested,
every close code — `1011`, `1008`, and all others — sets status `error` and
nulls `wsRef`; when `isDisconnectingRef` is set and `wsRef` survives, reset
to `disconnected`. -/
def wsOnClose (code : ℕ) (s : SessionState) : SessionState :=
  if s.isDisconnecting = false then
    if code = 1011 ∨ code = 1008 then
      { s with status := LiveStatus.error, wsState := none }
    else
      { s with status := LiveStatus.error, wsState := none }
  else
    if s.wsState.isSome then
      { s with status := LiveStatus.disconnected, wsState := none }
    else s

/-- Delivery of a transport close event: the handler body runs only while
`ws.onclose` is attached (`cleanupSession` sets `ws.onclose = null` before
closing). -/
def transportCloseEvent (code : ℕ) (s : SessionState) : SessionState :=
  if s.oncloseAttached then wsOnClose code s else s

/-- Send operation `sendExactFrame`: guarded on `readyState === OPEN`; strips the data-URL
header by taking the part after the first comma. -/
def sendExactFrame (s : SessionState) (base64Image : String) : SessionState :=
  if s.wsState = some WsReadyState.OPEN then
    { s with sent := s.sent ++ [OutboundFrame.image ((base64Image.splitOn ",").get? 1)] }
  else s

/-- Send operation `sendPoseData`: guarded on `readyState === OPEN`; rounds coordinates to
three decimals and visibility (defaulting to 1) to two. -/
def sendPoseData (s : SessionState) (landmarks : List LandmarkIn) : SessionState :=
  if s.wsState = some WsReadyState.OPEN then
    let simplified := landmarks.enum.map (fun p =>
      { idx := p.1, x := round3 p.2.x, y := round3 p.2.y, z := round3 p.2.z,
        v := round2 (p.2.visibility.getD 1) : SimplifiedLandmark })
    { s with sent := s.sent ++ [OutboundFrame.pose simplified] }
  else s

/-- Send operation `setTargetPose`: guarded on `readyState === OPEN`. -/
def setTargetPose (s : SessionState) (pose : TargetPose) : SessionState :=
  if s.wsState = some WsReadyState.OPEN then
    { s with sent := s.sent ++ [OutboundFrame.setTarget pose.id pose.title
        pose.description pose.headPos pose.handsPos pose.feetPos pose.tips] }
  else s

/-! ## Capture-pipeline startup (`startAudioCapture` and `ws.onopen`) -/

/-- Environment facts for one `connect()` attempt: whether
`audioWorklet.addModule('/audio-processor.js')` rejects, and whether the
`audio-processor` processor name was already registered in this (freshly
created) audio context. -/
structure AudioEnv where
  moduleLoadFails : Bool
  processorRegistered : Bool
deriving DecidableEq

/-- Pipeline startup `startAudioCapture`: the inner `try` swallows a failed `addModule` (only
logging it), so after it the processor is registered iff the load succeeded
or a prior load had registered it.  `new AudioWorkletNode(ctx,
'audio-processor')` then throws when the name is unregistered (Web Audio
semantics of an unknown node name); the outer `catch` logs and rethrows. -/
def startAudioCapture (env : AudioEnv) : Except String Unit :=
  let registered := env.processorRegistered || !env.moduleLoadFails
  if registered then Except.ok () else Except.error "audio-processor is not registered"

/-- The `ws.onopen` handler: set status `connected`, then run
`startAudioCapture`; on a thrown error set status `error` and call
`ws.close()` (the open socket moves to `CLOSING`). -/
def handleOpen (env : AudioEnv) (s : SessionState) : SessionState :=
  let s1 := { s with status := LiveStatus.connected }
  match startAudioCapture env with
  | Except.ok _ => s1
  | Except.error _ =>
      { s1 with status := LiveStatus.error,
                wsState := s1.wsState.map (fun _ => WsReadyState.CLOSING) }

/-! ## Subtitle / feedback aggregator (`src/store/useLivePoseStore.ts`) -/

/-- Whether `needle` leads the character list (JS `String.startsWith`). -/
def leadsWith : List Char → List Char → Bool
  | [], _ => true
  | _ :: _, [] => false
  | a :: as, b :: bs => a = b && leadsWith as bs

/-- Whether the list contains `needle` as a contiguous run (JS `String.includes`). -/
def listContains (needle : List Char) : List Char → Bool
  | [] => needle.isEmpty
  | c :: rest => leadsWith needle (c :: rest) || listContains needle rest

/-- JS `String.trim`: strip leading and trailing whitespace. -/
def trimChars (l : List Char) : List Char :=
  ((l.dropWhile Char.isWhitespace).reverse.dropWhile Char.isWhitespace).reverse

/-- The markdown-bold marker the filter looks for. -/
def boldMarker : List Char := ['*', '*']

/-- Filter `isThinkingToken`: trimmed text starting with `**` and containing `**`,
or trimmed text shorter than 2 characters, is treated as a thinking token. -/
def isThinkingToken (text : String) : Bool :=
  let trimmed := trimChars text.data
  if leadsWith boldMarker trimmed && listContains boldMarker trimmed then true
  else if trimmed.length < 2 then true
  else false

/-- Record `FeedbackItem` of the live-pose store. -/
structure FeedbackItem where
  id : String
  text : String
  timestamp : ℤ
deriving DecidableEq

/-- Constant `MAX_QUEUE_SIZE = 3`. -/
def MAX_QUEUE_SIZE : ℕ := 3

/-- Constant `FEEDBACK_TTL = 4000` milliseconds. -/
def FEEDBACK_TTL : ℤ := 4000

/-- The store fields the aggregator mutates. -/
structure LiveStore where
  subtitleText : String
  subtitleVisible : Bool
  subtitleLastUpdate : ℤ
  feedbackQueue : List FeedbackItem
  lastAiFeedback : Option String
deriving DecidableEq

/-- The initial store state. -/
def initialStore : LiveStore :=
  { subtitleText := "", subtitleVisible := false, subtitleLastUpdate := 0,
    feedbackQueue := [], lastAiFeedback := none }

/-- Caption update `appendSubtitle` at wall-clock time `now` (`Date.now()`): thinking tokens
are dropped; otherwise reset the caption when strictly more than 3000ms have
elapsed since the last update, else append; make the caption visible and
stamp the update time.  (The fade timer only affects later visibility.) -/
def appendSubtitle (store : LiveStore) (text : String) (now : ℤ) : LiveStore :=
  if isThinkingToken text then store
  else
    let shouldReset := now - store.subtitleLastUpdate > 3000
    let newText := if shouldReset then text else store.subtitleText ++ text
    { store with subtitleText := newText, subtitleVisible := true, subtitleLastUpdate := now }

/-- Queue update `addFeedback` at time `now` with the generated unique id `newId`:
thinking tokens are dropped; otherwise unshift the new item and keep at most
`MAX_QUEUE_SIZE` items, updating `lastAiFeedback` for the legacy API. -/
def addFeedback (store : LiveStore) (text : String) (now : ℤ) (newId : String) : LiveStore :=
  if isThinkingToken text then store
  else
    let newItem : FeedbackItem := { id := newId, text := text, timestamp := now }
    { store with
        feedbackQueue := (newItem :: store.feedbackQueue).take MAX_QUEUE_SIZE,
        lastAiFeedback := some text }

/-- Purge `cleanupExpiredFeedback` at time `now`: keep only items younger than the
TTL. -/
def cleanupExpiredFeedback (store : LiveStore) (now : ℤ) : LiveStore :=
  { store with
      feedbackQueue := store.feedbackQueue.filter
        (fun item => now - item.timestamp < FEEDBACK_TTL) }

/-! ## Concrete states used to instantiate the theorems -/

/-- A live session right after `ws.onopen` ran successfully. -/
def connectedState : SessionState :=
  { status := LiveStatus.connected, wsState := some WsReadyState.OPEN,
    oncloseAttached := true, isDisconnecting := false,
    streamActive := true, audioCtxOpen := true, sent := [] }

/-- A session before `connect()` was ever called. -/
def idleState : SessionState :=
  { status := LiveStatus.disconnected, wsState := none,
    oncloseAttached := false, isDisconnecting := false,
    streamActive := false, audioCtxOpen := false, sent := [] }

/-- A sample pose record for `setTargetPose`. -/
def samplePose : TargetPose :=
  { id := "p1", title := "T Pose", description := "stand tall",
    headPos := "up", handsPos := "out", feetPos := "apart", tips := [] }

/-- A store holding the caption `"Hold"` stamped at time 0. -/
def holdStore : LiveStore :=
  { subtitleText := "Hold", subtitleVisible := true, subtitleLastUpdate := 0,
    feedbackQueue := [], lastAiFeedback := none }

section Theorems

/-! ## Helper lemmas -/

theorem leadsWith_listContains :
    ∀ (needle hay : List Char), leadsWith needle hay = true → listContains needle hay = true := by
  intro needle hay h
  cases hay with
  | nil =>
      cases needle with
      | nil => simp [listContains]
      | cons a as => simp [leadsWith] at h
  | cons c rest => simp [listContains, h]

theorem appendSubtitle_of_thinking (store : LiveStore) (text : String) (now : ℤ)
    (h : isThinkingToken text = true) : appendSubtitle store text now = store := by
  simp [appendSubtitle, h]

theorem addFeedback_of_thinking (store : LiveStore) (text : String) (now : ℤ) (newId : String)
    (h : isThinkingToken text = true) : addFeedback store text now newId = store := by
  simp [addFeedback, h]

/-! ## C1 — fail-stop on unsolicited close -/

/-- C1: for a session in status `connected`, a transport close not preceded
by a local `disconnect()` call sets the status to `error` for every close
code (normal codes included) and never to `disconnected`; a close preceded
by a local `disconnect()` call leaves the status `disconnected`. -/
theorem unsolicited_close_failstop (s : SessionState) (code : ℕ)
    (hst : s.status = LiveStatus.connected)
    (hflag : s.isDisconnecting = false)
    (hattached : s.oncloseAttached = true) :
    ((transportCloseEvent code s).status = LiveStatus.error ∧
      (transportCloseEvent code s).status ≠ LiveStatus.disconnected) ∧
    (transportCloseEvent code (disconnect s)).status = LiveStatus.disconnected := by
  refine ⟨⟨?_, ?_⟩, ?_⟩
  · simp only [transportCloseEvent, hattached, if_true, wsOnClose, hflag]
    split <;> rfl
  · simp only [transportCloseEvent, hattached, if_true, wsOnClose, hflag]
    split <;> simp
  · cases hws : s.wsState <;>
      simp [disconnect, cleanupSession, transportCloseEvent, wsOnClose, hws]

theorem unsolicited_close_failstop_witness :
    ((transportCloseEvent 1000 connectedState).status = LiveStatus.error ∧
      (transportCloseEvent 1000 connectedState).status ≠ LiveStatus.disconnected) ∧
    (transportCloseEvent 1000 (disconnect connectedState)).status = LiveStatus.disconnected :=
  unsolicited_close_failstop connectedState 1000 rfl rfl rfl

/-! ## C5 — outbound gating -/

/-- C5: while the transport is absent or not open, every send operation
(`sendExactFrame`, `sendPoseData`, `setTargetPose`) leaves the session state
unchanged — no transport write, no queued frame, and no thrown error (the
operations are total functions returning the state unchanged). -/
theorem outbound_gating (s : SessionState) (img : String)
    (lms : List LandmarkIn) (pose : TargetPose)
    (h : s.wsState ≠ some WsReadyState.OPEN) :
    sendExactFrame s img = s ∧ sendPoseData s lms = s ∧ setTargetPose s pose = s := by
  refine ⟨?_, ?_, ?_⟩ <;> simp [sendExactFrame, sendPoseData, setTargetPose, h]

theorem outbound_gating_witness :
    sendExactFrame idleState "data:image/jpeg;base64,abcd" = idleState ∧
    sendPoseData idleState [{ x := 1/2, y := 1/3, z := 0, visibility := none }] = idleState ∧
    setTargetPose idleState samplePose = idleState :=
  outbound_gating idleState "data:image/jpeg;base64,abcd"
    [{ x := 1/2, y := 1/3, z := 0, visibility := none }] samplePose (by simp [idleState])

/-! ## C9 — fail-loud capture setup -/

/-- C9: when loading the audio processing module fails during
capture-pipeline startup (in a fresh audio context, where the processor name
is not yet registered), `startAudioCapture` propagates an error, and the
`ws.onopen` handler then sets the session status to `error` and closes the
transport — the session never remains `connected` with a dead pipeline. -/
theorem capture_failloud (env : AudioEnv) (s : SessionState)
    (hfail : env.moduleLoadFails = true)
    (hreg : env.processorRegistered = false) :
    (∃ msg, startAudioCapture env = Except.error msg) ∧
    (handleOpen env s).status = LiveStatus.error ∧
    (handleOpen env s).status ≠ LiveStatus.connected ∧
    (handleOpen env s).wsState ≠ some WsReadyState.OPEN := by
  have hsc : startAudioCapture env = Except.error "audio-processor is not registered" := by
    simp [startAudioCapture, hfail, hreg]
  refine ⟨⟨_, hsc⟩, ?_, ?_, ?_⟩ <;> cases hws : s.wsState <;> simp [handleOpen, hsc, hws]

theorem capture_failloud_witness :
    (∃ msg, startAudioCapture { moduleLoadFails := true, processorRegistered := false } =
      Except.error msg) ∧
    (handleOpen { moduleLoadFails := true, processorRegistered := false } connectedState).status =
      LiveStatus.error ∧
    (handleOpen { moduleLoadFails := true, processorRegistered := false } connectedState).status ≠
      LiveStatus.connected ∧
    (handleOpen { moduleLoadFails := true, processorRegistered := false } connectedState).wsState ≠
      some WsReadyState.OPEN :=
  capture_failloud { moduleLoadFails := true, processorRegistered := false } connectedState rfl rfl

/-! ## C8 — thinking-token filtering -/

/-- C8: every inbound text whose trimmed form starts with the markdown-bold
marker and contains the marker, or whose trimmed length is below 2, is
classified as a thinking token; thinking tokens are discarded by both
`appendSubtitle` and `addFeedback` with the store unchanged; in particular
`"**Assessing pose**"` is discarded while `"Chin up"` is accepted. -/
theorem thinking_token_filter :
    (∀ text : String,
      ((leadsWith boldMarker (trimChars text.data) = true ∧
        listContains boldMarker (trimChars text.data) = true) ∨
       (trimChars text.data).length < 2) →
      isThinkingToken text = true) ∧
    (∀ (store : LiveStore) (text : String) (now : ℤ) (newId : String),
      isThinkingToken text = true →
      appendSubtitle store text now = store ∧ addFeedback store text now newId = store) ∧
    isThinkingToken "**Assessing pose**" = true ∧
    isThinkingToken "Chin up" = false := by
  refine ⟨?_, ?_, by decide, by decide⟩
  · intro text h
    unfold isThinkingToken
    rcases h with ⟨h1, h2⟩ | h3
    · simp [h1, h2]
    · simp [h3]
  · intro store text now newId h
    exact ⟨appendSubtitle_of_thinking store text now h,
           addFeedback_of_thinking store text now newId h⟩

theorem thinking_token_filter_witness :
    appendSubtitle initialStore "**Assessing pose**" 100 = initialStore ∧
    addFeedback initialStore "**Assessing pose**" 100 "fb-1" = initialStore :=
  thinking_token_filter.2.1 initialStore "**Assessing pose**" 100 "fb-1"
    thinking_token_filter.2.2.1

/-! ## C10 — unterminated bold fragments are filtered -/

/-- C10: for every input whose trimmed form starts with `**`,
`isThinkingToken` returns `true` even with no closing marker — the
`includes` check is satisfied by the opening marker itself — and the text is
discarded by `appendSubtitle` and `addFeedback`. -/
theorem unterminated_bold_filtered (text : String) (store : LiveStore) (now : ℤ) (newId : String)
    (h : leadsWith boldMarker (trimChars text.data) = true) :
    isThinkingToken text = true ∧
    appendSubtitle store text now = store ∧
    addFeedback store text now newId = store := by
  have hthink : isThinkingToken text = true := by
    unfold isThinkingToken
    simp [h, leadsWith_listContains boldMarker (trimChars text.data) h]
  exact ⟨hthink, appendSubtitle_of_thinking store text now hthink,
         addFeedback_of_thinking store text now newId hthink⟩

theorem unterminated_bold_filtered_witness :
    isThinkingToken "**Assessing pose" = true ∧
    appendSubtitle initialStore "**Assessing pose" 100 = initialStore ∧
    addFeedback initialStore "**Assessing pose" 100 "fb-1" = initialStore :=
  unterminated_bold_filtered "**Assessing pose" initialStore 100 "fb-1" (by decide)

/-! ## C4 — subtitle windowing -/

/-- C4 counterexample: with the caption `"Hold"` last updated at t=0, a
fragment arriving at exactly t=3000 — a gap of exactly 3000ms, which the
claim says replaces the caption — is appended instead: the caption becomes
`"Hold steady"`, not `" steady"`. -/
theorem subtitle_windowing_counterexample :
    (appendSubtitle holdStore " steady" 3000).subtitleText = "Hold steady" ∧
    "Hold steady" ≠ " steady" := by
  constructor
  · have hthink : isThinkingToken " steady" = false := by decide
    simp [appendSubtitle, hthink, holdStore]
  · decide

/-- C4 (amended): an accepted fragment arriving at most 3000ms after the
last update is appended to the caption; a fragment arriving strictly more
than 3000ms after the last update replaces it; in both cases the caption
becomes visible and the update time is stamped. -/
theorem subtitle_windowing (store : LiveStore) (text : String) (now : ℤ)
    (ht : isThinkingToken text = false) :
    (now - store.subtitleLastUpdate ≤ 3000 →
      (appendSubtitle store text now).subtitleText = store.subtitleText ++ text) ∧
    (now - store.subtitleLastUpdate > 3000 →
      (appendSubtitle store text now).subtitleText = text) ∧
    (appendSubtitle store text now).subtitleVisible = true ∧
    (appendSubtitle store text now).subtitleLastUpdate = now := by
  have key : appendSubtitle store text now =
      { store with
          subtitleText :=
            if now - store.subtitleLastUpdate > 3000 then text
            else store.subtitleText ++ text,
          subtitleVisible := true, subtitleLastUpdate := now } := by
    simp [appendSubtitle, ht]
  refine ⟨?_, ?_, ?_, ?_⟩
  · intro h
    rw [key]
    exact if_neg (by omega)
  · intro h
    rw [key]
    exact if_pos (by omega)
  · rw [key]
  · rw [key]

theorem subtitle_windowing_witness :
    ((500 : ℤ) - holdStore.subtitleLastUpdate ≤ 3000 →
      (appendSubtitle holdStore " steady" 500).subtitleText = holdStore.subtitleText ++ " steady") ∧
    ((500 : ℤ) - holdStore.subtitleLastUpdate > 3000 →
      (appendSubtitle holdStore " steady" 500).subtitleText = " steady") ∧
    (appendSubtitle holdStore " steady" 500).subtitleVisible = true ∧
    (appendSubtitle holdStore " steady" 500).subtitleLastUpdate = 500 :=
  subtitle_windowing holdStore " steady" 500 (by decide)

/-! ## C7 — feedback queue TTL and bound -/

/-- C7: a feedback item added at t=0 survives the TTL cleanup at t=3999 and
is gone after the cleanup at t=4001; the queue produced by `addFeedback`
never exceeds 3 items and cleanup never grows it; the new item is placed at
the front; and when the queue already holds 3 items the last (oldest) one is
the item evicted. -/
theorem feedback_ttl_bound (store : LiveStore) (text : String) (newId : String)
    (ht : isThinkingToken text = false) :
    ((cleanupExpiredFeedback (addFeedback store text 0 newId) 3999).feedbackQueue.head? =
       some { id := newId, text := text, timestamp := 0 } ∧
     { id := newId, text := text, timestamp := 0 } ∉
       (cleanupExpiredFeedback (addFeedback store text 0 newId) 4001).feedbackQueue) ∧
    (addFeedback store text 0 newId).feedbackQueue.length ≤ 3 ∧
    (∀ now : ℤ, (cleanupExpiredFeedback store now).feedbackQueue.length ≤
       store.feedbackQueue.length) ∧
    (addFeedback store text 0 newId).feedbackQueue.head? =
       some { id := newId, text := text, timestamp := 0 } ∧
    (store.feedbackQueue.length = 3 →
      (addFeedback store text 0 newId).feedbackQueue =
        { id := newId, text := text, timestamp := 0 } :: store.feedbackQueue.take 2) := by
  have hq : (addFeedback store text 0 newId).feedbackQueue =
      { id := newId, text := text, timestamp := (0 : ℤ) } :: store.feedbackQueue.take 2 := by
    simp [addFeedback, ht, MAX_QUEUE_SIZE]
  refine ⟨⟨?_, ?_⟩, ?_, ?_, ?_, fun h3 => hq⟩
  · simp [cleanupExpiredFeedback, hq, List.filter_cons, FEEDBACK_TTL]
  · intro hmem
    simp [cleanupExpiredFeedback, List.mem_filter, FEEDBACK_TTL] at hmem
  · rw [hq]
    simp [List.length_take]
  · intro now
    exact List.length_filter_le _ _
  · rw [hq]
    rfl

theorem feedback_ttl_bound_witness :
    ((cleanupExpiredFeedback (addFeedback initialStore "Chin up" 0 "fb-1") 3999).feedbackQueue.head? =
       some { id := "fb-1", text := "Chin up", timestamp := 0 } ∧
     { id := "fb-1", text := "Chin up", timestamp := (0 : ℤ) } ∉
       (cleanupExpiredFeedback (addFeedback initialStore "Chin up" 0 "fb-1") 4001).feedbackQueue) ∧
    (addFeedback initialStore "Chin up" 0 "fb-1").feedbackQueue.length ≤ 3 ∧
    (∀ now : ℤ, (cleanupExpiredFeedback initialStore now).feedbackQueue.length ≤
       initialStore.feedbackQueue.length) ∧
    (addFeedback initialStore "Chin up" 0 "fb-1").feedbackQueue.head? =
       some { id := "fb-1", text := "Chin up", timestamp := 0 } ∧
    (initialStore.feedbackQueue.length = 3 →
      (addFeedback initialStore "Chin up" 0 "fb-1").feedbackQueue =
        { id := "fb-1", text := "Chin up", timestamp := 0 } :: initialStore.feedbackQueue.take 2) :=
  feedback_ttl_bound initialStore "Chin up" "fb-1" (by decide)

/-! ## C2 — gapless playback scheduling -/

theorem schedule_length (l : List (ℚ × ℚ)) : ∀ c : ℚ, (schedule c l).length = l.length := by
  induction l with
  | nil => intro c; simp [schedule]
  | cons a t ih => intro c; simp [schedule, ih]

theorem schedule_get_zero (c : ℚ) (a : ℚ × ℚ) (l : List (ℚ × ℚ))
    (h : 0 < (schedule c (a :: l)).length) :
    (schedule c (a :: l)).get ⟨0, h⟩ = max c a.1 := by
  simp [schedule]

theorem schedule_get_succ :
    ∀ (l : List (ℚ × ℚ)) (c : ℚ) (i : ℕ)
      (h1 : i + 1 < (schedule c l).length) (h2 : i < (schedule c l).length)
      (h3 : i < l.length) (h4 : i + 1 < l.length),
      (schedule c l).get ⟨i + 1, h1⟩ =
        max ((schedule c l).get ⟨i, h2⟩ + (l.get ⟨i, h3⟩).2) ((l.get ⟨i + 1, h4⟩).1) := by
  intro l
  induction l with
  | nil => intro c i h1 h2 h3 h4; simp [schedule] at h1
  | cons a t ih =>
      intro c i h1 h2 h3 h4
      cases i with
      | zero =>
          cases t with
          | nil => simp [schedule] at h1
          | cons b t2 =>
              simp [schedule]
      | succ j =>
          simp only [schedule, List.get_cons_succ]
          exact ih (max c a.1 + a.2) j _ _ _ _

/-- C2: with inbound chunks given as pairs (arrival time on the audio clock,
duration) and any initial cursor, consecutive scheduled start times satisfy
`s(i) + d(i) ≤ s(i+1)` and `s(i+1) ≤ max(now(i+1), s(i) + d(i))` — each
chunk starts at `max(nextStartTime, now)` and the cursor advances by the
chunk's duration, so playback has no overlap and no avoidable gap. -/
theorem playback_gapless (chunks : List (ℚ × ℚ)) (c0 : ℚ) (i : ℕ)
    (h1 : i + 1 < (schedule c0 chunks).length) (h2 : i < (schedule c0 chunks).length)
    (h3 : i < chunks.length) (h4 : i + 1 < chunks.length) :
    (schedule c0 chunks).get ⟨i, h2⟩ + (chunks.get ⟨i, h3⟩).2 ≤
      (schedule c0 chunks).get ⟨i + 1, h1⟩ ∧
    (schedule c0 chunks).get ⟨i + 1, h1⟩ ≤
      max ((chunks.get ⟨i + 1, h4⟩).1)
        ((schedule c0 chunks).get ⟨i, h2⟩ + (chunks.get ⟨i, h3⟩).2) := by
  rw [schedule_get_succ chunks c0 i h1 h2 h3 h4]
  exact ⟨le_max_left _ _, le_of_eq (max_comm _ _)⟩

theorem playback_gapless_witness :
    (schedule 0 [((0 : ℚ), (1 : ℚ)), ((0 : ℚ), (2 : ℚ))]).get ⟨0, by simp [schedule]⟩ +
        (([((0 : ℚ), (1 : ℚ)), ((0 : ℚ), (2 : ℚ))]).get ⟨0, by simp⟩).2 ≤
      (schedule 0 [((0 : ℚ), (1 : ℚ)), ((0 : ℚ), (2 : ℚ))]).get ⟨1, by simp [schedule]⟩ ∧
    (schedule 0 [((0 : ℚ), (1 : ℚ)), ((0 : ℚ), (2 : ℚ))]).get ⟨1, by simp [schedule]⟩ ≤
      max ((([((0 : ℚ), (1 : ℚ)), ((0 : ℚ), (2 : ℚ))]).get ⟨1, by simp⟩).1)
        ((schedule 0 [((0 : ℚ), (1 : ℚ)), ((0 : ℚ), (2 : ℚ))]).get ⟨0, by simp [schedule]⟩ +
          (([((0 : ℚ), (1 : ℚ)), ((0 : ℚ), (2 : ℚ))]).get ⟨0, by simp⟩).2) :=
  playback_gapless [((0 : ℚ), (1 : ℚ)), ((0 : ℚ), (2 : ℚ))] 0 0
    (by simp [schedule]) (by simp [schedule]) (by simp) (by simp)

/-! ## C6 — capture windowing -/

theorem processSamples_invariant :
    ∀ (input : List ℚ) (st : CaptureState),
      st.buf.length < bufferSize →
      (∀ f ∈ st.frames, f.length = bufferSize) →
      (processSamples st input).buf.length < bufferSize ∧
      (∀ f ∈ (processSamples st input).frames, f.length = bufferSize) ∧
      (processSamples st input).frames.flatten ++ (processSamples st input).buf =
        st.frames.flatten ++ st.buf ++ input := by
  intro input
  induction input with
  | nil =>
      intro st h1 h2
      exact ⟨h1, h2, by simp [processSamples]⟩
  | cons x t ih =>
      intro st h1 h2
      have step : processSamples st (x :: t) = processSamples (captureStep st x) t := by
        simp [processSamples]
      rw [step]
      by_cases hfull : bufferSize ≤ (st.buf ++ [x]).length
      · have hlen : (st.buf ++ [x]).length = bufferSize := by
          simp only [List.length_append, List.length_singleton] at hfull ⊢
          omega
        have hfull2 : bufferSize ≤ st.buf.length + 1 := by simpa using hfull
        have hcs : captureStep st x =
            { buf := [], frames := st.frames ++ [st.buf ++ [x]] } := by
          simp [captureStep, hfull2]
        rw [hcs]
        obtain ⟨g1, g2, g3⟩ := ih { buf := [], frames := st.frames ++ [st.buf ++ [x]] }
          (by simp [bufferSize])
          (by intro f hf
              rcases List.mem_append.mp hf with hf1 | hf2
              · exact h2 f hf1
              · simp at hf2
                rw [hf2]
                exact hlen)
        refine ⟨g1, g2, ?_⟩
        rw [g3]
        simp [List.append_assoc]
      · have hfull2 : ¬ bufferSize ≤ st.buf.length + 1 := by simpa using hfull
        have hcs : captureStep st x = { st with buf := st.buf ++ [x] } := by
          simp [captureStep, hfull2]
        rw [hcs]
        obtain ⟨g1, g2, g3⟩ := ih { st with buf := st.buf ++ [x] }
          (by simp only [List.length_append, List.length_singleton] at hfull ⊢; omega)
          h2
        refine ⟨g1, g2, ?_⟩
        rw [g3]
        simp [List.append_assoc]

theorem flatten_length_uniform (n : ℕ) :
    ∀ ls : List (List ℚ), (∀ f ∈ ls, f.length = n) → ls.flatten.length = n * ls.length := by
  intro ls
  induction ls with
  | nil => intro h; simp
  | cons a t ih =>
      intro h
      have ha : a.length = n := h a (by simp)
      have ht : ∀ f ∈ t, f.length = n := fun f hf => h f (by simp [hf])
      simp [ha, ih ht, Nat.mul_succ, Nat.add_comm]

/-- C6: every frame emitted by the capture processor holds exactly 4096
samples, and the in-order concatenation of all emitted frames equals the
input stream truncated to the largest multiple of 4096 samples (so a stream
shorter than one window emits nothing). -/
theorem capture_windowing (input : List ℚ) :
    (∀ f ∈ (captureRun input).frames, f.length = bufferSize) ∧
    (captureRun input).frames.flatten =
      input.take (bufferSize * (input.length / bufferSize)) := by
  simp only [captureRun]
  obtain ⟨h1, h2, h3⟩ := processSamples_invariant input ⟨[], []⟩
    (by simp [bufferSize]) (by simp)
  simp only [List.flatten_nil, List.nil_append, List.append_nil] at h3
  set J := (processSamples (⟨[], []⟩ : CaptureState) input).frames.flatten with hJ
  set B := (processSamples (⟨[], []⟩ : CaptureState) input).buf with hB
  refine ⟨h2, ?_⟩
  have hflat : J.length =
      bufferSize * (processSamples (⟨[], []⟩ : CaptureState) input).frames.length :=
    flatten_length_uniform bufferSize _ h2
  have hlen : input.length = J.length + B.length := by
    rw [← h3]
    simp
  have hdiv : bufferSize * (input.length / bufferSize) = J.length := by
    have hbuf : B.length < bufferSize := h1
    rw [hflat] at hlen ⊢
    simp only [bufferSize] at hlen hbuf ⊢
    omega
  rw [hdiv, ← h3, List.take_left]

theorem capture_windowing_witness :
    (∀ f ∈ (captureRun [(0 : ℚ), 1]).frames, f.length = bufferSize) ∧
    (captureRun [(0 : ℚ), 1]).frames.flatten =
      ([(0 : ℚ), 1]).take (bufferSize * (([(0 : ℚ), 1]).length / bufferSize)) :=
  capture_windowing [(0 : ℚ), 1]

/-! ## C3 — codec round-trip -/

theorem clampSample_bounds (x : ℚ) : -1 ≤ clampSample x ∧ clampSample x ≤ 1 := by
  unfold clampSample
  constructor
  · exact le_max_left _ _
  · exact max_le (by norm_num) (min_le_left _ _)

theorem clampSample_of_bounds (x : ℚ) (h1 : -1 ≤ x) (h2 : x ≤ 1) : clampSample x = x := by
  unfold clampSample
  rw [min_eq_right h2, max_eq_right h1]

theorem jsTrunc_scale_bounds (s : ℚ) (h1 : -1 ≤ s) (h2 : s ≤ 1) :
    -32768 ≤ jsTrunc (scaleSample s) ∧ jsTrunc (scaleSample s) ≤ 32767 := by
  unfold scaleSample jsTrunc
  by_cases hneg : s < 0
  · have hy : ¬ (0 : ℚ) ≤ s * 32768 := by nlinarith
    simp only [if_pos hneg, if_neg hy]
    have hf1 : (⌊-(s * 32768)⌋ : ℚ) ≤ -(s * 32768) := Int.floor_le _
    have hf2 : -(s * 32768) < ⌊-(s * 32768)⌋ + 1 := Int.lt_floor_add_one _
    constructor
    · have : (⌊-(s * 32768)⌋ : ℚ) ≤ 32768 := by nlinarith
      have hz : ⌊-(s * 32768)⌋ ≤ 32768 := by exact_mod_cast this
      omega
    · have : (-1 : ℚ) < ⌊-(s * 32768)⌋ := by nlinarith
      have hz : (-1 : ℤ) < ⌊-(s * 32768)⌋ := by exact_mod_cast this
      omega
  · have hs0 : (0 : ℚ) ≤ s := not_lt.mp hneg
    have hy : (0 : ℚ) ≤ s * 32767 := by nlinarith
    simp only [if_neg hneg, if_pos hy]
    have hf1 : (⌊s * 32767⌋ : ℚ) ≤ s * 32767 := Int.floor_le _
    have hf2 : s * 32767 < ⌊s * 32767⌋ + 1 := Int.lt_floor_add_one _
    constructor
    · have : (-1 : ℚ) < ⌊s * 32767⌋ := by nlinarith
      have hz : (-1 : ℤ) < ⌊s * 32767⌋ := by exact_mod_cast this
      omega
    · have : (⌊s * 32767⌋ : ℚ) ≤ 32767 := by nlinarith
      have hz : ⌊s * 32767⌋ ≤ (32767 : ℤ) := by exact_mod_cast this
      omega

theorem roundTripSample_close (x : ℚ) (h1 : -1 ≤ x) (h2 : x ≤ 1) :
    |roundTripSample x - x| < 2 / 32768 := by
  unfold roundTripSample scaleSample jsTrunc
  rw [clampSample_of_bounds x h1 h2]
  by_cases hneg : x < 0
  · have hy : ¬ (0 : ℚ) ≤ x * 32768 := by nlinarith
    simp only [if_pos hneg, if_neg hy]
    have hf1 : (⌊-(x * 32768)⌋ : ℚ) ≤ -(x * 32768) := Int.floor_le _
    have hf2 : -(x * 32768) < ⌊-(x * 32768)⌋ + 1 := Int.lt_floor_add_one _
    rw [abs_lt]
    push_cast
    constructor <;> nlinarith
  · have hs0 : (0 : ℚ) ≤ x := not_lt.mp hneg
    have hy : (0 : ℚ) ≤ x * 32767 := by nlinarith
    simp only [if_neg hneg, if_pos hy]
    have hf1 : (⌊x * 32767⌋ : ℚ) ≤ x * 32767 := Int.floor_le _
    have hf2 : x * 32767 < ⌊x * 32767⌋ + 1 := Int.lt_floor_add_one _
    rw [abs_lt]
    constructor <;> nlinarith

theorem toInt16_unwrap (t : ℤ) (hlo : -32768 ≤ t) (hhi : t ≤ 32767) :
    toInt16 (int16Wrap t % 256 + 256 * (int16Wrap t / 256)) = t := by
  rw [Nat.mod_add_div]
  unfold toInt16 int16Wrap
  split <;> omega

theorem decode_encode_cons (x : ℚ) (rest : List ℕ) :
    int16ToFloat32 (encodeSample x ++ rest) = roundTripSample x :: int16ToFloat32 rest := by
  obtain ⟨hb1, hb2⟩ := clampSample_bounds x
  obtain ⟨ht1, ht2⟩ := jsTrunc_scale_bounds (clampSample x) hb1 hb2
  simp only [encodeSample, List.cons_append, List.nil_append, int16ToFloat32, roundTripSample]
  rw [toInt16_unwrap _ ht1 ht2]
  simp

theorem decode_encode_map (xs : List ℚ) :
    int16ToFloat32 (floatTo16BitPCM xs) = xs.map roundTripSample := by
  induction xs with
  | nil => simp [floatTo16BitPCM, int16ToFloat32]
  | cons x t ih =>
      simp only [floatTo16BitPCM, List.map_cons, List.flatten_cons] at ih ⊢
      rw [decode_encode_cons, ih]

/-- C3 counterexample: for the one-sample array `[0.99]`, whose value lies
in `[-1, 1]`, the decode-of-encode result is `32439 / 32768`, and the
per-sample error `|32439/32768 - 99/100| = 1.32/32768` exceeds the claimed
bound `1/32768` — truncation toward zero after scaling by 32767 while
decoding divides by 32768 makes the worst-case error approach `2/32768`. -/
theorem codec_roundtrip_counterexample :
    int16ToFloat32 (floatTo16BitPCM [(99 : ℚ) / 100]) = [(32439 : ℚ) / 32768] ∧
    ¬ |(32439 : ℚ) / 32768 - 99 / 100| ≤ 1 / 32768 := by
  constructor
  · have e1 : floatTo16BitPCM [(99 : ℚ) / 100] = [183, 126] := by
      norm_num [floatTo16BitPCM, encodeSample, clampSample, scaleSample, jsTrunc, int16Wrap]
      omega
    rw [e1]
    norm_num [int16ToFloat32, toInt16]
  · rw [abs_of_neg (by norm_num)]
    norm_num

/-- C3 (amended): decoding the encoding of a sample array with values in
`[-1, 1]` yields an array of the same length whose i-th element differs
from the original by strictly less than `2/32768` (the claimed `1/32768`
bound fails; truncation admits errors up to just under `2/32768`). -/
theorem codec_roundtrip (xs : List ℚ) (hx : ∀ x ∈ xs, -1 ≤ x ∧ x ≤ 1) :
    (int16ToFloat32 (floatTo16BitPCM xs)).length = xs.length ∧
    ∀ (i : ℕ) (hd : i < (int16ToFloat32 (floatTo16BitPCM xs)).length) (hs : i < xs.length),
      |(int16ToFloat32 (floatTo16BitPCM xs)).get ⟨i, hd⟩ - xs.get ⟨i, hs⟩| < 2 / 32768 := by
  constructor
  · rw [decode_encode_map]
    simp
  · intro i hd hs
    have hg : (int16ToFloat32 (floatTo16BitPCM xs)).get ⟨i, hd⟩ =
        roundTripSample (xs.get ⟨i, hs⟩) := by
      have := decode_encode_map xs
      rw [List.get_of_eq this]
      simp [List.get_map]
    rw [hg]
    obtain ⟨hxl, hxr⟩ := hx (xs.get ⟨i, hs⟩) (xs.get_mem i hs)
    exact roundTripSample_close _ hxl hxr

theorem codec_roundtrip_witness :
    |(int16ToFloat32 (floatTo16BitPCM [(1 : ℚ) / 2])).get
        ⟨0, by rw [decode_encode_map]; simp⟩ - ([(1 : ℚ) / 2]).get ⟨0, by simp⟩| < 2 / 32768 :=
  (codec_roundtrip [(1 : ℚ) / 2] (by norm_num)).2 0
    (by rw [decode_encode_map]; simp) (by simp)

end Theorems

end MCai
